import Mathlib

/-! The `ProcessUtils` of nebula: a shallow embedding.

Source: `src/common/process/ProcessUtils.cpp`.

The functions of `ProcessUtils` are glue over the operating system: `::kill`,
`::access`, `::fopen`/`::fprintf`, `::getpid`, the symlink reader
`fs::FileUtils::readLink` and the line reader `proc::ProcAccessor`.  The
operating system is an explicit value `OS`; every embedded function takes it as
its first argument and returns its C++ result together with the list of calls
it made (`Call`), and, for `makePidFile`, the file system it leaves behind.

Machine integers are naturals and integers with explicit wrap-around:
`uint32_t` arguments are naturals below `2 ^ 32`, `pid_t` is a signed 32-bit
integer.  A path is a C string (no embedded NUL).
-/

namespace nebula

/-! ## The operating system -/

/-- Linux `errno` value of `EPERM`. -/
def EPERM : Nat := 1

/-- Linux `errno` value of `ENOENT`. -/
def ENOENT : Nat := 2

/-- Linux `errno` value of `ESRCH`. -/
def ESRCH : Nat := 3

/-- Linux `errno` value of `EACCES`. -/
def EACCES : Nat := 13

/-- Linux `errno` value of `ENOTDIR`. -/
def ENOTDIR : Nat := 20

/-- Linux value of `PATH_MAX` (`<limits.h>`). -/
def PATH_MAX : Nat := 4096

/-- Outcome of a system call that reports failure through `errno`:
`ok` is the success return value, `fail e` is the failure return value with
`errno = e`. -/
inductive SysResult where
  | ok
  | fail (errno : Nat)
  deriving DecidableEq, Repr

/-- The repository's `Status`: `Status::OK()` or `Status::Error(fmt, ...)`
carrying the formatted message. -/
inductive Status where
  | OK
  | Error (msg : String)
  deriving DecidableEq, Repr

/-- The member `Status::ok()`. -/
def Status.ok : Status → Bool
  | Status.OK => true
  | Status.Error _ => false

/-- The repository's `StatusOr<T>`: a value or a non-OK status. -/
inductive StatusOr (α : Type) where
  | value (a : α)
  | status (s : Status)
  deriving DecidableEq, Repr

/-- How a C++ call ends: it returns a value, or an exception of the named type
leaves it. -/
inductive Outcome (α : Type) where
  | returned (a : α)
  | thrown (exception : String)
  deriving DecidableEq, Repr

/-- A regular file as the calling process sees it: its text, whether the
caller may read it and whether the caller may write it. -/
structure File where
  content : String
  readable : Bool
  writable : Bool
  deriving DecidableEq, Repr

/-- The state of the operating system the functions run against. -/
structure OS where
  /-- The regular file at each path, if there is one. -/
  files : String → Option File
  /-- For a path without a file: the `errno` with which `access` refuses it,
  `ENOENT` when the file or a directory on the way is missing, another value
  otherwise (`ENOTDIR`, `EACCES` on a directory, `ELOOP`). -/
  absentErr : String → Nat
  /-- For a path without a file: the `errno` with which creating one fails
  (a missing parent directory, a read-only directory), or `none`. -/
  createErr : String → Option Nat
  /-- Whether a file the caller creates is readable by the caller (the umask). -/
  createReadable : Bool
  /-- The system call `kill(pid, sig)` for signal 0, which delivers nothing. -/
  kill : Int → Int → SysResult
  /-- The value of `getpid()`. -/
  getpid : Nat
  /-- The type `pid_t` is a signed 32-bit integer and a process id is not negative. -/
  getpid_lt : getpid < 2 ^ 31
  /-- The C function `strerror`. -/
  strerror : Nat → String
  /-- The repository's `fs::FileUtils::readLink`, declared outside this file. -/
  readLink : String → StatusOr String
  /-- The repository's `proc::ProcAccessor(path).next(line)`, declared outside
  this file: the line read, or `none` when the call returns false. -/
  readLine : String → Option String

/-- A call that crosses the boundary to the operating system or to a helper
that reads from it. -/
inductive Call where
  | kill (pid : Int) (sig : Int)
  | access (path : String)
  | readFile (path : String)
  | fopen (path : String)
  | getpid
  | fprintf (path : String) (text : String)
  | readLink (path : String)
  | readLine (path : String)
  deriving DecidableEq, Repr

/-- The call `access(path, R_OK)`: a path without a file is refused with the
`errno` of the path lookup, a file the caller may not read gives `EACCES`. -/
def OS.access (os : OS) (path : String) : SysResult :=
  match os.files path with
  | none => SysResult.fail (os.absentErr path)
  | some f => if f.readable then SysResult.ok else SysResult.fail EACCES

/-- The file table with the file at `path` replaced. -/
def OS.setFile (os : OS) (path : String) (f : File) : OS :=
  { os with files := fun q => if q = path then some f else os.files q }

/-- The call `fopen(path, "w")`: an existing file is truncated when the caller
may write it and keeps its permissions; a missing file is created empty when
the directory allows it.  Failure leaves the file system as it is. -/
def OS.fopenW (os : OS) (path : String) : SysResult × OS :=
  match os.files path with
  | some f =>
    if f.writable then (SysResult.ok, os.setFile path { f with content := "" })
    else (SysResult.fail EACCES, os)
  | none =>
    match os.createErr path with
    | some e => (SysResult.fail e, os)
    | none =>
      (SysResult.ok,
        os.setFile path { content := "", readable := os.createReadable, writable := true })

/-- Writing `text` through a stream opened on `path`, then `fflush` and
`fclose`: the text is appended to the file. -/
def OS.fprintf (os : OS) (path : String) (text : String) : OS :=
  match os.files path with
  | some f => os.setFile path { f with content := f.content ++ text }
  | none => os

/-! ## Integer conversions and formatting -/

/-- Conversion of an integer to `uint32_t`. -/
def toUInt32 (n : Nat) : Nat := n % 2 ^ 32

/-- Conversion of a `uint32_t` to the signed 32-bit `pid_t`. -/
def toPidT (u : Nat) : Int :=
  if u % 2 ^ 32 < 2 ^ 31 then ((u % 2 ^ 32 : Nat) : Int)
  else ((u % 2 ^ 32 : Nat) : Int) - 2 ^ 32

/-- The conversion `%u` of `printf` applied to a `uint32_t`. -/
def fmtU (u : Nat) : String := Nat.repr (u % 2 ^ 32)

/-- The call `snprintf(buf, size, ...)` followed by reading `buf` as a C
string: at most `size - 1` characters of the formatted text are kept. -/
def snprintf (size : Nat) (text : String) : String :=
  String.mk (text.data.take (size - 1))

/-! ## `ProcessUtils::isPidAvailable(uint32_t)` -/

/-- Embedding of `Status ProcessUtils::isPidAvailable(uint32_t pid)`. -/
def isPidAvailable (os : OS) (pid : Nat) : Status × List Call :=
  let SIG_OK : Int := 0
  let calls := [Call.kill (toPidT pid) SIG_OK]
  match os.kill (toPidT pid) SIG_OK with
  | SysResult.ok => (Status.Error ("Process `" ++ fmtU pid ++ "' already existed"), calls)
  | SysResult.fail errno =>
    if errno = EPERM then
      (Status.Error ("Process `" ++ fmtU pid ++ "' already existed but denied to access"), calls)
    else if errno ≠ ESRCH then
      (Status.Error ("Uknown error: `" ++ os.strerror errno ++ "'"), calls)
    else
      (Status.OK, calls)

/-! ## The target of a probe -/

/-- What the first argument of `kill(pid, sig)` designates (kill(2)): a
positive value is one process, zero is the process group of the caller, -1 is
every process the caller may signal, another negative value is the process
group whose id is the absolute value. -/
inductive KillTarget where
  | process (pid : Nat)
  | callerGroup
  | broadcast
  | group (pgid : Nat)
  deriving DecidableEq, Repr

/-- The target of `kill(pid, sig)` by the sign of `pid`. -/
def killTarget (pid : Int) : KillTarget :=
  if 0 < pid then KillTarget.process pid.toNat
  else if pid = 0 then KillTarget.callerGroup
  else if pid = -1 then KillTarget.broadcast
  else KillTarget.group (-pid).toNat

/-! ## Reading a pid back from a pidfile -/

/-- Modelled from the spec: `proc::ProcAccessor::next(pattern, result)` with the
pattern `([0-9]+)`, declared outside this file.  The spec says the pidfile
either "contains no digit run" or has a "first digit run" that is parsed; the
reader goes through the text line by line and a digit run never spans a line
break, so the capture is the first maximal run of decimal digits of the text,
and there is none when the text has no digit. -/
def firstDigitRun (text : List Char) : Option (List Char) :=
  match (text.dropWhile (fun c => !c.isDigit)).takeWhile Char.isDigit with
  | [] => none
  | c :: cs => some (c :: cs)

/-- The reader `proc::ProcAccessor accessor(path); accessor.next(pattern, result)`
on the file table: a file that cannot be opened for reading yields no match. -/
def accessorNext (os : OS) (path : String) : Option (List Char) :=
  match os.files path with
  | none => none
  | some f => if f.readable then firstDigitRun f.content.data else none

/-- The number a run of decimal digits denotes. -/
def digitsValue (ds : List Char) : Nat :=
  ds.foldl (fun acc c => 10 * acc + (c.toNat - 48)) 0

/-- The library call `folly::to<uint32_t>(str)` on a non-empty run of decimal
digits, the only strings the pattern captures: the number the digits denote
when it fits 32 bits (leading zeros are allowed), and otherwise the exception
`folly::ConversionError` is thrown. -/
def follyToUInt32 (ds : List Char) : Outcome Nat :=
  if digitsValue ds < 2 ^ 32 then Outcome.returned (digitsValue ds)
  else Outcome.thrown "folly::ConversionError"

/-! ## `ProcessUtils::isPidAvailable(const std::string&)` -/

/-- Embedding of `Status ProcessUtils::isPidAvailable(const std::string &pidFile)`. -/
def isPidAvailableFile (os : OS) (pidFile : String) : Outcome Status × List Call :=
  match os.access pidFile with
  | SysResult.fail errno =>
    if errno = ENOENT then
      (Outcome.returned Status.OK, [Call.access pidFile])
    else
      (Outcome.returned (Status.Error (pidFile ++ ": " ++ os.strerror errno)),
        [Call.access pidFile])
  | SysResult.ok =>
    match accessorNext os pidFile with
    | none =>
      (Outcome.returned Status.OK, [Call.access pidFile, Call.readFile pidFile])
    | some run =>
      match follyToUInt32 run with
      | Outcome.thrown exception =>
        (Outcome.thrown exception, [Call.access pidFile, Call.readFile pidFile])
      | Outcome.returned pid =>
        (Outcome.returned (isPidAvailable os pid).1,
          [Call.access pidFile, Call.readFile pidFile] ++ (isPidAvailable os pid).2)

/-! ## `ProcessUtils::makePidFile` -/

/-- Embedding of
`Status ProcessUtils::makePidFile(const std::string &pidFile, uint32_t pid)`:
the status, the operating system after the call and the calls made. -/
def makePidFile (os : OS) (pidFile : String) (pid : Nat) : Status × OS × List Call :=
  match os.fopenW pidFile with
  | (SysResult.fail errno, os1) =>
    (Status.Error ("Open or create `" ++ pidFile ++ "': " ++ os.strerror errno), os1,
      [Call.fopen pidFile])
  | (SysResult.ok, os1) =>
    if pid = 0 then
      (Status.OK, os1.fprintf pidFile (fmtU (toUInt32 os.getpid) ++ "\n"),
        [Call.fopen pidFile, Call.getpid,
          Call.fprintf pidFile (fmtU (toUInt32 os.getpid) ++ "\n")])
    else
      (Status.OK, os1.fprintf pidFile (fmtU pid ++ "\n"),
        [Call.fopen pidFile, Call.fprintf pidFile (fmtU pid ++ "\n")])

/-! ## `getExePath`, `getExeCWD`, `getProcessName` -/

/-- The pid a function works on after `if (pid == 0) pid = ::getpid();`, and
the calls that resolution makes. -/
def resolvePid (os : OS) (pid : Nat) : Nat × List Call :=
  if pid = 0 then (toUInt32 os.getpid, [Call.getpid]) else (pid, [])

/-- Embedding of `StatusOr<std::string> ProcessUtils::getExePath(uint32_t pid)`. -/
def getExePath (os : OS) (pid : Nat) : StatusOr String × List Call :=
  let path := snprintf PATH_MAX ("/proc/" ++ fmtU (resolvePid os pid).1 ++ "/exe")
  (os.readLink path, (resolvePid os pid).2 ++ [Call.readLink path])

/-- Embedding of `StatusOr<std::string> ProcessUtils::getExeCWD(uint32_t pid)`. -/
def getExeCWD (os : OS) (pid : Nat) : StatusOr String × List Call :=
  let path := snprintf PATH_MAX ("/proc/" ++ fmtU (resolvePid os pid).1 ++ "/cwd")
  (os.readLink path, (resolvePid os pid).2 ++ [Call.readLink path])

/-- Embedding of `StatusOr<std::string> ProcessUtils::getProcessName(uint32_t pid)`. -/
def getProcessName (os : OS) (pid : Nat) : StatusOr String × List Call :=
  let path := snprintf PATH_MAX ("/proc/" ++ fmtU (resolvePid os pid).1 ++ "/comm")
  match os.readLine path with
  | none =>
    (StatusOr.status (Status.Error ("Failed to read from `" ++ path ++ "'")),
      (resolvePid os pid).2 ++ [Call.readLine path])
  | some name => (StatusOr.value name, (resolvePid os pid).2 ++ [Call.readLine path])

/-! ## Concrete operating-system states -/

/-- A small system: process 4242 is the caller, process 1 belongs to another
user, no other process exists.  The file `/run/a.pid` is an ordinary file of
the caller, `/run/w.pid` is write-only, `/run/ro.pid` is read-only,
`/run/none.pid` holds no digit and `/run/big.pid` records a number that does
not fit 32 bits.  The only file that can be created is `/run/new.pid`. -/
def demoOS : OS where
  files := fun p =>
    if p = "/run/a.pid" then some { content := "77\n", readable := true, writable := true }
    else if p = "/run/w.pid" then some { content := "", readable := false, writable := true }
    else if p = "/run/ro.pid" then some { content := "5\n", readable := true, writable := false }
    else if p = "/run/none.pid" then some { content := "no pid\n", readable := true, writable := true }
    else if p = "/run/big.pid" then
      some { content := "4294967296\n", readable := true, writable := true }
    else none
  absentErr := fun p => if p = "/run/a.pid/x" then ENOTDIR else ENOENT
  createErr := fun p => if p = "/run/new.pid" then none else some ENOENT
  createReadable := true
  kill := fun pid _ =>
    if pid = 4242 ∨ pid = 0 then SysResult.ok
    else if pid = 1 then SysResult.fail EPERM
    else SysResult.fail ESRCH
  getpid := 4242
  getpid_lt := by norm_num
  strerror := fun e =>
    if e = EPERM then "Operation not permitted"
    else if e = ENOENT then "No such file or directory"
    else if e = ESRCH then "No such process"
    else if e = EACCES then "Permission denied"
    else if e = ENOTDIR then "Not a directory"
    else "Unknown error"
  readLink := fun p =>
    if p = "/proc/4242/exe" then StatusOr.value "/usr/bin/nebula"
    else if p = "/proc/4242/cwd" then StatusOr.value "/"
    else StatusOr.status (Status.Error "readlink failed")
  readLine := fun p => if p = "/proc/4242/comm" then some "nebula" else none

/-! ## Decimal text: printing with `%u` and reading it back -/

theorem digitChar_isDigit (k : Nat) (hk : k < 10) :
    (Nat.digitChar k).isDigit = true ∧ (Nat.digitChar k).toNat - 48 = k := by
  interval_cases k <;> exact ⟨by decide, by decide⟩

theorem toDigitsCore_append (fuel : Nat) :
    ∀ (n : Nat) (ds : List Char),
      Nat.toDigitsCore 10 fuel n ds = Nat.toDigitsCore 10 fuel n [] ++ ds := by
  induction fuel with
  | zero => intro n ds; simp [Nat.toDigitsCore]
  | succ f ih =>
    intro n ds
    simp only [Nat.toDigitsCore]
    by_cases h : n / 10 = 0
    · simp [h]
    · simp only [h, if_false]
      rw [ih (n / 10) (Nat.digitChar (n % 10) :: ds), ih (n / 10) [Nat.digitChar (n % 10)]]
      simp

theorem digitsValue_append_singleton (xs : List Char) (d : Char) :
    digitsValue (xs ++ [d]) = 10 * digitsValue xs + (d.toNat - 48) := by
  simp [digitsValue, List.foldl_append]

theorem toDigitsCore_spec (fuel : Nat) :
    ∀ n : Nat, n < fuel →
      (∀ c ∈ Nat.toDigitsCore 10 fuel n [], c.isDigit = true) ∧
      Nat.toDigitsCore 10 fuel n [] ≠ [] ∧
      digitsValue (Nat.toDigitsCore 10 fuel n []) = n := by
  induction fuel with
  | zero => intro n hn; omega
  | succ f ih =>
    intro n hn
    have hd := digitChar_isDigit (n % 10) (Nat.mod_lt n (by norm_num))
    simp only [Nat.toDigitsCore]
    by_cases h : n / 10 = 0
    · simp only [h, if_true]
      refine ⟨?_, by simp, ?_⟩
      · intro c hc
        simp only [List.mem_singleton] at hc
        rw [hc]; exact hd.1
      · have : digitsValue [Nat.digitChar (n % 10)] = (Nat.digitChar (n % 10)).toNat - 48 := by
          simp [digitsValue]
        rw [this, hd.2]
        omega
    · simp only [h, if_false]
      rw [toDigitsCore_append f (n / 10) [Nat.digitChar (n % 10)]]
      have hlt : n / 10 < f := by omega
      obtain ⟨h1, h2, h3⟩ := ih (n / 10) hlt
      refine ⟨?_, by simp, ?_⟩
      · intro c hc
        rcases List.mem_append.mp hc with hc | hc
        · exact h1 c hc
        · simp only [List.mem_singleton] at hc
          rw [hc]; exact hd.1
      · rw [digitsValue_append_singleton, h3, hd.2]
        omega

/-- The text `%u` prints is a non-empty run of decimal digits that denotes the
number printed. -/
theorem repr_digits (n : Nat) :
    (∀ c ∈ (Nat.repr n).data, c.isDigit = true) ∧ (Nat.repr n).data ≠ [] ∧
      digitsValue (Nat.repr n).data = n := by
  have h := toDigitsCore_spec (n + 1) n (Nat.lt_succ_self n)
  simpa [Nat.repr, Nat.toDigits, List.asString] using h

theorem takeWhile_digits_append (ds rest : List Char) (h : ∀ c ∈ ds, c.isDigit = true) :
    (ds ++ '\n' :: rest).takeWhile Char.isDigit = ds := by
  induction ds with
  | nil => simp [List.takeWhile]
  | cons c cs ih =>
    have hc : c.isDigit = true := h c (List.mem_cons_self c cs)
    have ih2 := ih (fun x hx => h x (List.mem_cons_of_mem c hx))
    rw [List.cons_append, List.takeWhile_cons, if_pos hc, ih2]

/-- The first digit run of a digit run followed by a line break is that run. -/
theorem firstDigitRun_line (ds rest : List Char) (h : ∀ c ∈ ds, c.isDigit = true)
    (hne : ds ≠ []) : firstDigitRun (ds ++ '\n' :: rest) = some ds := by
  cases ds with
  | nil => exact absurd rfl hne
  | cons c cs =>
    have hc : c.isDigit = true := h c (List.mem_cons_self c cs)
    have hdrop : (c :: cs ++ '\n' :: rest).dropWhile (fun c => !c.isDigit)
        = c :: cs ++ '\n' :: rest := by
      simp [List.dropWhile, hc]
    have htake := takeWhile_digits_append (c :: cs) rest h
    simp only [firstDigitRun, hdrop, htake]

/-- Reading back what `%u` followed by a line break printed gives the number. -/
theorem read_fmtU (n : Nat) (hn : n < 2 ^ 32) :
    (firstDigitRun (fmtU n ++ "\n").data).map follyToUInt32 = some (Outcome.returned n) := by
  obtain ⟨h1, h2, h3⟩ := repr_digits n
  have hmod : n % 2 ^ 32 = n := Nat.mod_eq_of_lt hn
  have hdata : (fmtU n ++ "\n").data = (Nat.repr n).data ++ '\n' :: [] := by
    simp only [fmtU, hmod, String.data_append]
  rw [hdata, firstDigitRun_line _ _ h1 h2]
  simp only [Option.map_some', follyToUInt32, h3, if_pos hn]

/-! ## What `makePidFile` leaves behind -/

theorem setFile_setFile (os : OS) (path : String) (f g : File) :
    (os.setFile path f).setFile path g = os.setFile path g := by
  simp only [OS.setFile]
  congr 1
  funext q
  by_cases hq : q = path <;> simp [hq]

theorem setFile_files_self (os : OS) (path : String) (f : File) :
    (os.setFile path f).files path = some f := by
  simp [OS.setFile]

theorem fprintf_setFile (os : OS) (path : String) (f : File) (text : String) :
    (os.setFile path f).fprintf path text
      = os.setFile path { f with content := f.content ++ text } := by
  simp only [OS.fprintf, setFile_files_self, setFile_setFile]

/-- When the file opens, `fopen` leaves an empty file at the path. -/
theorem fopenW_ok (os : OS) (path : String) (h : (os.fopenW path).1 = SysResult.ok) :
    ∃ r w, os.fopenW path = (SysResult.ok, os.setFile path ⟨"", r, w⟩) := by
  unfold OS.fopenW at h ⊢
  cases hf : os.files path with
  | some f =>
    simp only [hf] at h ⊢
    by_cases hw : f.writable = true
    · exact ⟨f.readable, f.writable, by simp [hw]⟩
    · simp [hw] at h
  | none =>
    simp only [hf] at h ⊢
    cases hc : os.createErr path with
    | some e => simp [hc] at h
    | none => exact ⟨os.createReadable, true, rfl⟩

/-- When the file does not open, `fopen` changes nothing. -/
theorem fopenW_fail (os : OS) (path : String) (e : Nat)
    (h : (os.fopenW path).1 = SysResult.fail e) : os.fopenW path = (SysResult.fail e, os) := by
  unfold OS.fopenW at h ⊢
  cases hf : os.files path with
  | some f =>
    simp only [hf] at h ⊢
    by_cases hw : f.writable = true
    · simp [hw] at h
    · simp only [hw] at h ⊢
      simp only [Bool.false_eq_true, if_false] at h ⊢
      rw [h]
  | none =>
    simp only [hf] at h ⊢
    cases hc : os.createErr path with
    | some e1 =>
      simp only [hc] at h ⊢
      rw [h]
    | none => simp [hc] at h

/-- The state after a `makePidFile` whose file opened: the file holds the
printed pid and a line break. -/
theorem makePidFile_ok (os : OS) (path : String) (pid : Nat)
    (h : (os.fopenW path).1 = SysResult.ok) :
    ∃ r w, (makePidFile os path pid).1 = Status.OK ∧
      (makePidFile os path pid).2.1
        = os.setFile path ⟨fmtU (resolvePid os pid).1 ++ "\n", r, w⟩ := by
  obtain ⟨r, w, hfo⟩ := fopenW_ok os path h
  refine ⟨r, w, ?_⟩
  unfold makePidFile resolvePid
  rw [hfo]
  by_cases hp : pid = 0
  · simp [hp, fprintf_setFile]
  · simp [hp, fprintf_setFile]

/-! ## The probe of `isPidAvailable(pid)` -/

theorem isPidAvailable_calls (os : OS) (pid : Nat) :
    (isPidAvailable os pid).2 = [Call.kill (toPidT pid) 0] := by
  simp only [isPidAvailable]
  split
  · rfl
  · split
    · rfl
    · split <;> rfl

theorem isPidAvailable_of_ok (os : OS) (pid : Nat)
    (h : os.kill (toPidT pid) 0 = SysResult.ok) :
    (isPidAvailable os pid).1 = Status.Error ("Process `" ++ fmtU pid ++ "' already existed") := by
  simp only [isPidAvailable, h]

theorem isPidAvailable_of_fail (os : OS) (pid e : Nat)
    (h : os.kill (toPidT pid) 0 = SysResult.fail e) :
    (isPidAvailable os pid).1 =
      if e = EPERM then
        Status.Error ("Process `" ++ fmtU pid ++ "' already existed but denied to access")
      else if e ≠ ESRCH then Status.Error ("Uknown error: `" ++ os.strerror e ++ "'")
      else Status.OK := by
  simp only [isPidAvailable, h]
  split
  · rfl
  · split <;> rfl

theorem toPidT_small (pid : Nat) (h : pid < 2 ^ 31) : toPidT pid = (pid : Int) := by
  have hmod : pid % 2 ^ 32 = pid := Nat.mod_eq_of_lt (by omega)
  unfold toPidT
  rw [hmod, if_pos h]

theorem toPidT_large (pid : Nat) (h : pid < 2 ^ 32) (hge : 2 ^ 31 ≤ pid) :
    toPidT pid = (pid : Int) - 2 ^ 32 := by
  have hmod : pid % 2 ^ 32 = pid := Nat.mod_eq_of_lt h
  unfold toPidT
  rw [hmod, if_neg (by omega)]

/-- C1: `isPidAvailable(pid)` returns `Status::OK()` exactly when the no-op
signal probe fails with `ESRCH`; every other outcome of the probe (success,
`EPERM`, any other `errno`) gives a failure status. -/
theorem isPidAvailable_ok_iff_esrch (os : OS) (pid : Nat) :
    ((isPidAvailable os pid).1 = Status.OK ↔
        os.kill (toPidT pid) 0 = SysResult.fail ESRCH) ∧
      (os.kill (toPidT pid) 0 ≠ SysResult.fail ESRCH →
        ∃ msg, (isPidAvailable os pid).1 = Status.Error msg) := by
  cases hk : os.kill (toPidT pid) 0 with
  | ok =>
    rw [isPidAvailable_of_ok os pid hk]
    exact ⟨⟨(fun h => nomatch h), (fun h => nomatch h)⟩, fun _ => ⟨_, rfl⟩⟩
  | fail e =>
    rw [isPidAvailable_of_fail os pid e hk]
    by_cases h1 : e = EPERM
    · rw [if_pos h1]
      subst h1
      exact ⟨⟨(fun h => nomatch h), (fun h => nomatch h)⟩, fun _ => ⟨_, rfl⟩⟩
    · rw [if_neg h1]
      by_cases h2 : e = ESRCH
      · subst h2
        rw [if_neg (by simp)]
        exact ⟨⟨fun _ => rfl, fun _ => rfl⟩, fun h => absurd rfl h⟩
      · rw [if_pos h2]
        refine ⟨⟨(fun h => nomatch h), fun h => ?_⟩, fun _ => ⟨_, rfl⟩⟩
        exact absurd (SysResult.fail.inj h) h2

/-- Witness of C1: on `demoOS` no process 7 exists, so pid 7 is available, and
process 1 is denied, so pid 1 is not. -/
theorem isPidAvailable_ok_iff_esrch_witness :
    (isPidAvailable demoOS 7).1 = Status.OK ∧
      ∃ msg, (isPidAvailable demoOS 1).1 = Status.Error msg :=
  ⟨(isPidAvailable_ok_iff_esrch demoOS 7).1.mpr (by decide),
    (isPidAvailable_ok_iff_esrch demoOS 1).2 (by decide)⟩

/-- C7: for every pid, the message of the failure returned when the probe
reports `EPERM` differs from the message of the failure returned when the
probe succeeds; both results are failures. -/
theorem isPidAvailable_denied_ne_existed (os1 os2 : OS) (pid : Nat)
    (hdenied : os1.kill (toPidT pid) 0 = SysResult.fail EPERM)
    (hexists : os2.kill (toPidT pid) 0 = SysResult.ok) :
    ∃ m1 m2, (isPidAvailable os1 pid).1 = Status.Error m1 ∧
      (isPidAvailable os2 pid).1 = Status.Error m2 ∧ m1 ≠ m2 := by
  refine ⟨"Process `" ++ fmtU pid ++ "' already existed but denied to access",
    "Process `" ++ fmtU pid ++ "' already existed", ?_, ?_, ?_⟩
  · rw [isPidAvailable_of_fail os1 pid EPERM hdenied, if_pos rfl]
  · exact isPidAvailable_of_ok os2 pid hexists
  · intro h
    have hlen := congrArg String.length h
    simp only [String.length_append] at hlen
    have e1 : ("' already existed but denied to access" : String).length = 38 := by decide
    have e2 : ("' already existed" : String).length = 17 := by decide
    omega

/-- Witness of C7: pid 1 is denied on `demoOS`, and exists and is accessible on
the same system with process 1 made the caller's own. -/
theorem isPidAvailable_denied_ne_existed_witness :
    ∃ m1 m2, (isPidAvailable demoOS 1).1 = Status.Error m1 ∧
      (isPidAvailable { demoOS with kill := fun _ _ => SysResult.ok } 1).1 = Status.Error m2 ∧
      m1 ≠ m2 :=
  isPidAvailable_denied_ne_existed demoOS { demoOS with kill := fun _ _ => SysResult.ok } 1
    (by decide) (by decide)

/-- C10: `isPidAvailable(pid)` makes one call, `kill` with the `uint32_t`
argument converted to the signed 32-bit `pid_t`.  The probe designates the
process `pid` exactly when `1 <= pid < 2^31`; for `pid >= 2^31` the argument is
the negative number `pid - 2^32`, which designates a process group or every
process; for `pid = 0` it designates the caller's process group. -/
theorem isPidAvailable_probe_target (os : OS) (pid : Nat) (h : pid < 2 ^ 32) :
    (isPidAvailable os pid).2 = [Call.kill (toPidT pid) 0] ∧
      (killTarget (toPidT pid) = KillTarget.process pid ↔ 1 ≤ pid ∧ pid < 2 ^ 31) ∧
      (2 ^ 31 ≤ pid →
        toPidT pid = (pid : Int) - 2 ^ 32 ∧ toPidT pid < 0 ∧
          (killTarget (toPidT pid) = KillTarget.broadcast ∨
            killTarget (toPidT pid) = KillTarget.group (2 ^ 32 - pid))) ∧
      (pid = 0 → killTarget (toPidT pid) = KillTarget.callerGroup) := by
  refine ⟨isPidAvailable_calls os pid, ?_, ?_, ?_⟩
  · by_cases hlt : pid < 2 ^ 31
    · rw [toPidT_small pid hlt]
      by_cases h0 : pid = 0
      · subst h0
        constructor
        · intro hk; revert hk; decide
        · intro hk; omega
      · have hpos : (0 : Int) < (pid : Int) := by omega
        unfold killTarget
        rw [if_pos hpos, Int.toNat_ofNat]
        exact ⟨fun _ => ⟨by omega, hlt⟩, fun _ => rfl⟩
    · rw [toPidT_large pid h (by omega)]
      have hneg : ¬ (0 : Int) < (pid : Int) - 2 ^ 32 := by omega
      have hne0 : ¬ (pid : Int) - 2 ^ 32 = 0 := by omega
      unfold killTarget
      rw [if_neg hneg, if_neg hne0]
      constructor
      · intro hk
        by_cases hm : (pid : Int) - 2 ^ 32 = -1
        · rw [if_pos hm] at hk; cases hk
        · rw [if_neg hm] at hk; cases hk
      · intro hk; omega
  · intro hge
    have ht := toPidT_large pid h hge
    rw [ht]
    have hneg : ¬ (0 : Int) < (pid : Int) - 2 ^ 32 := by omega
    have hne0 : ¬ (pid : Int) - 2 ^ 32 = 0 := by omega
    refine ⟨rfl, by omega, ?_⟩
    unfold killTarget
    rw [if_neg hneg, if_neg hne0]
    by_cases hm : (pid : Int) - 2 ^ 32 = -1
    · left; rw [if_pos hm]
    · right
      rw [if_neg hm]
      congr 1
      omega
  · intro h0
    subst h0
    decide

/-- Witness of C10: pid `2^32 - 1` reaches `kill` as -1, the broadcast target. -/
theorem isPidAvailable_probe_target_witness :
    (isPidAvailable demoOS 4294967295).2 = [Call.kill (-1) 0] ∧
      killTarget (toPidT 4294967295) = KillTarget.broadcast := by
  have h := isPidAvailable_probe_target demoOS 4294967295 (by norm_num)
  refine ⟨?_, by decide⟩
  rw [h.1]
  decide

/-! ## The readability check of `isPidAvailable(pidFile)` -/

theorem isPidAvailableFile_of_access_fail (os : OS) (path : String) (e : Nat)
    (h : os.access path = SysResult.fail e) :
    isPidAvailableFile os path =
      if e = ENOENT then (Outcome.returned Status.OK, [Call.access path])
      else (Outcome.returned (Status.Error (path ++ ": " ++ os.strerror e)),
        [Call.access path]) := by
  simp only [isPidAvailableFile, h]

/-- C4: when the readability check fails with `ENOENT`, `isPidAvailable(path)`
returns `Status::OK()` and its only call is that check (no file is read, no
probe is sent); when the check fails with another `errno`, it returns the
failure with message `<path>: <strerror(errno)>`. -/
theorem isPidAvailableFile_unreadable (os : OS) (path : String) :
    (os.access path = SysResult.fail ENOENT →
        isPidAvailableFile os path = (Outcome.returned Status.OK, [Call.access path])) ∧
      (∀ e, os.access path = SysResult.fail e → e ≠ ENOENT →
        isPidAvailableFile os path =
          (Outcome.returned (Status.Error (path ++ ": " ++ os.strerror e)),
            [Call.access path])) := by
  constructor
  · intro h
    rw [isPidAvailableFile_of_access_fail os path ENOENT h, if_pos rfl]
  · intro e h hne
    rw [isPidAvailableFile_of_access_fail os path e h, if_neg hne]

/-- Witness of C4: a path without a file, and the write-only file of `demoOS`. -/
theorem isPidAvailableFile_unreadable_witness :
    isPidAvailableFile demoOS "/run/gone.pid"
        = (Outcome.returned Status.OK, [Call.access "/run/gone.pid"]) ∧
      isPidAvailableFile demoOS "/run/w.pid"
        = (Outcome.returned (Status.Error ("/run/w.pid" ++ ": " ++ demoOS.strerror EACCES)),
            [Call.access "/run/w.pid"]) :=
  ⟨(isPidAvailableFile_unreadable demoOS "/run/gone.pid").1 (by decide),
    (isPidAvailableFile_unreadable demoOS "/run/w.pid").2 EACCES (by decide) (by decide)⟩

/-! ## Paths under `/proc` -/

theorem resolvePid_fst (os : OS) (pid : Nat) :
    (resolvePid os pid).1 = if pid = 0 then os.getpid else pid := by
  have hg : os.getpid % 2 ^ 32 = os.getpid :=
    Nat.mod_eq_of_lt (Nat.lt_trans os.getpid_lt (by norm_num))
  unfold resolvePid toUInt32
  by_cases hp : pid = 0
  · rw [if_pos hp, if_pos hp, hg]
  · rw [if_neg hp, if_neg hp]

theorem resolvePid_snd (os : OS) (pid : Nat) :
    (resolvePid os pid).2 = if pid = 0 then [Call.getpid] else [] := by
  unfold resolvePid
  by_cases hp : pid = 0
  · rw [if_pos hp, if_pos hp]
  · rw [if_neg hp, if_neg hp]

theorem fmtU_eq (n : Nat) (h : n < 2 ^ 32) : fmtU n = Nat.repr n := by
  unfold fmtU
  rw [Nat.mod_eq_of_lt h]

/-- A path `/proc/<n><suffix>` with a 32-bit `n` and a short suffix is not cut
by `snprintf` into a `PATH_MAX` buffer. -/
theorem snprintf_proc (n : Nat) (h : n < 2 ^ 32) (suffix : String) (hs : suffix.length ≤ 5) :
    ("/proc/" ++ Nat.repr n ++ suffix).length < PATH_MAX ∧
      snprintf PATH_MAX ("/proc/" ++ Nat.repr n ++ suffix) = "/proc/" ++ Nat.repr n ++ suffix := by
  have hlen : (Nat.repr n).length ≤ 10 :=
    Nat.repr_length n 10 (by norm_num) (Nat.lt_trans h (by norm_num))
  have h6 : ("/proc/" : String).length = 6 := by decide
  have htot : ("/proc/" ++ Nat.repr n ++ suffix).length < PATH_MAX := by
    simp only [String.length_append, h6, PATH_MAX]
    omega
  refine ⟨htot, ?_⟩
  unfold snprintf
  have hle : ("/proc/" ++ Nat.repr n ++ suffix).data.length ≤ PATH_MAX - 1 := by
    have : ("/proc/" ++ Nat.repr n ++ suffix).data.length
        = ("/proc/" ++ Nat.repr n ++ suffix).length := rfl
    omega
  rw [List.take_of_length_le hle]

/-- C9: for a 32-bit pid, with `n` the pid or the current pid when the pid is
0, `getExePath`, `getExeCWD` and `getProcessName` query exactly
`/proc/<n>/exe`, `/proc/<n>/cwd` and `/proc/<n>/comm`; each path is shorter than
`PATH_MAX`, so none is truncated; the first two return the symlink reader's
result unchanged and the third returns the line read or the failure
"Failed to read from ..." naming the path. -/
theorem proc_paths (os : OS) (pid : Nat) (h : pid < 2 ^ 32) :
    getExePath os pid =
        (os.readLink ("/proc/" ++ Nat.repr (if pid = 0 then os.getpid else pid) ++ "/exe"),
          (if pid = 0 then [Call.getpid] else []) ++
            [Call.readLink
              ("/proc/" ++ Nat.repr (if pid = 0 then os.getpid else pid) ++ "/exe")]) ∧
      getExeCWD os pid =
        (os.readLink ("/proc/" ++ Nat.repr (if pid = 0 then os.getpid else pid) ++ "/cwd"),
          (if pid = 0 then [Call.getpid] else []) ++
            [Call.readLink
              ("/proc/" ++ Nat.repr (if pid = 0 then os.getpid else pid) ++ "/cwd")]) ∧
      getProcessName os pid =
        ((match os.readLine
              ("/proc/" ++ Nat.repr (if pid = 0 then os.getpid else pid) ++ "/comm") with
          | some name => StatusOr.value name
          | none =>
            StatusOr.status (Status.Error ("Failed to read from `" ++
              ("/proc/" ++ Nat.repr (if pid = 0 then os.getpid else pid) ++ "/comm") ++ "'"))),
          (if pid = 0 then [Call.getpid] else []) ++
            [Call.readLine
              ("/proc/" ++ Nat.repr (if pid = 0 then os.getpid else pid) ++ "/comm")]) ∧
      ("/proc/" ++ Nat.repr (if pid = 0 then os.getpid else pid) ++ "/exe").length < PATH_MAX ∧
      ("/proc/" ++ Nat.repr (if pid = 0 then os.getpid else pid) ++ "/cwd").length < PATH_MAX ∧
      ("/proc/" ++ Nat.repr (if pid = 0 then os.getpid else pid) ++ "/comm").length
        < PATH_MAX := by
  have hn : (if pid = 0 then os.getpid else pid) < 2 ^ 32 := by
    by_cases hp : pid = 0
    · rw [if_pos hp]; exact Nat.lt_trans os.getpid_lt (by norm_num)
    · rw [if_neg hp]; exact h
  have hexe := snprintf_proc _ hn "/exe" (by decide)
  have hcwd := snprintf_proc _ hn "/cwd" (by decide)
  have hcomm := snprintf_proc _ hn "/comm" (by decide)
  refine ⟨?_, ?_, ?_, hexe.1, hcwd.1, hcomm.1⟩
  · unfold getExePath
    simp only [resolvePid_fst, resolvePid_snd, fmtU_eq _ hn, hexe.2]
  · unfold getExeCWD
    simp only [resolvePid_fst, resolvePid_snd, fmtU_eq _ hn, hcwd.2]
  · unfold getProcessName
    simp only [resolvePid_fst, resolvePid_snd, fmtU_eq _ hn, hcomm.2]
    cases os.readLine ("/proc/" ++ Nat.repr (if pid = 0 then os.getpid else pid) ++ "/comm") <;>
      rfl

/-- Witness of C9: the caller of `demoOS` asks about itself with pid 0. -/
theorem proc_paths_witness :
    (getExePath demoOS 0).1 = demoOS.readLink "/proc/4242/exe" ∧
      (getProcessName demoOS 0).1 = StatusOr.value "nebula" := by
  have h := proc_paths demoOS 0 (by norm_num)
  refine ⟨?_, ?_⟩
  · rw [h.1]; decide
  · rw [h.2.2.1]; decide

/-! ## Writing a pidfile -/

/-- C8: if the file cannot be opened for writing, `makePidFile` returns the
failure "Open or create ..." with the text of `strerror(errno)` and the file
system is unchanged; if it can be opened, `makePidFile` returns `Status::OK()`,
the whole content of the file is the decimal pid (the current pid when the pid
is 0) followed by one line break, whatever the file held before, and every
other file is unchanged. -/
theorem makePidFile_effect (os : OS) (path : String) (pid : Nat) (h : pid < 2 ^ 32) :
    (∀ e, (os.fopenW path).1 = SysResult.fail e →
        (makePidFile os path pid).1 =
            Status.Error ("Open or create `" ++ path ++ "': " ++ os.strerror e) ∧
          (makePidFile os path pid).2.1 = os) ∧
      ((os.fopenW path).1 = SysResult.ok →
        (makePidFile os path pid).1 = Status.OK ∧
          Option.map File.content ((makePidFile os path pid).2.1.files path) =
            some (Nat.repr (if pid = 0 then os.getpid else pid) ++ "\n") ∧
          ∀ q, q ≠ path → (makePidFile os path pid).2.1.files q = os.files q) := by
  constructor
  · intro e he
    have hfo := fopenW_fail os path e he
    unfold makePidFile
    rw [hfo]
    exact ⟨rfl, rfl⟩
  · intro hok
    obtain ⟨r, w, hst, hos⟩ := makePidFile_ok os path pid hok
    have hn : (if pid = 0 then os.getpid else pid) < 2 ^ 32 := by
      by_cases hp : pid = 0
      · rw [if_pos hp]; exact Nat.lt_trans os.getpid_lt (by norm_num)
      · rw [if_neg hp]; exact h
    refine ⟨hst, ?_, ?_⟩
    · rw [hos, setFile_files_self, resolvePid_fst, fmtU_eq _ hn]
      rfl
    · intro q hq
      rw [hos]
      simp [OS.setFile, hq]

/-- Witness of C8: a read-only file is left alone, an existing file is
overwritten. -/
theorem makePidFile_effect_witness :
    ((makePidFile demoOS "/run/ro.pid" 9).1 =
          Status.Error ("Open or create `" ++ "/run/ro.pid" ++ "': " ++ demoOS.strerror EACCES) ∧
        (makePidFile demoOS "/run/ro.pid" 9).2.1 = demoOS) ∧
      ((makePidFile demoOS "/run/a.pid" 9).1 = Status.OK ∧
        Option.map File.content ((makePidFile demoOS "/run/a.pid" 9).2.1.files "/run/a.pid") =
          some (Nat.repr (if 9 = 0 then demoOS.getpid else 9) ++ "\n") ∧
        ∀ q, q ≠ "/run/a.pid" →
          (makePidFile demoOS "/run/a.pid" 9).2.1.files q = demoOS.files q) :=
  ⟨(makePidFile_effect demoOS "/run/ro.pid" 9 (by norm_num)).1 EACCES (by decide),
    (makePidFile_effect demoOS "/run/a.pid" 9 (by norm_num)).2 (by decide)⟩

/-! ## Reading back what was written -/

theorem isPidAvailable_setFile (os : OS) (path : String) (f : File) (pid : Nat) :
    isPidAvailable (os.setFile path f) pid = isPidAvailable os pid := rfl

/-- A readable pidfile whose first digit run converts to `n` is answered by
`isPidAvailable(n)`. -/
theorem isPidAvailableFile_of_content (os : OS) (path : String) (f : File) (n : Nat)
    (hf : os.files path = some f) (hr : f.readable = true)
    (hread : (firstDigitRun f.content.data).map follyToUInt32 = some (Outcome.returned n)) :
    isPidAvailableFile os path =
      (Outcome.returned (isPidAvailable os n).1,
        [Call.access path, Call.readFile path] ++ (isPidAvailable os n).2) := by
  cases hrun : firstDigitRun f.content.data with
  | none => rw [hrun] at hread; cases hread
  | some run =>
    rw [hrun] at hread
    have hconv : follyToUInt32 run = Outcome.returned n := Option.some.inj hread
    have hacc : os.access path = SysResult.ok := by
      simp only [OS.access, hf, hr, if_true]
    have hnext : accessorNext os path = some run := by
      simp only [accessorNext, hf, hr, if_true, hrun]
    simp only [isPidAvailableFile, hacc, hnext, hconv]

/-- C2, amended: for every non-zero 32-bit pid `p` and every path `x` that can
be opened for writing and passes the readability check once written, after
`makePidFile(x, p)` succeeds `isPidAvailable(x)` returns the status
`isPidAvailable(p)` returns; the first digit run of the text `%u` and a line
break produce converts back to `p`. -/
theorem pidfile_roundtrip (os : OS) (x : String) (p : Nat) (hp0 : p ≠ 0) (hp : p < 2 ^ 32)
    (hopen : (os.fopenW x).1 = SysResult.ok)
    (hread : (makePidFile os x p).2.1.access x = SysResult.ok) :
    (makePidFile os x p).1 = Status.OK ∧
      (isPidAvailableFile (makePidFile os x p).2.1 x).1 =
        Outcome.returned (isPidAvailable os p).1 ∧
      (firstDigitRun (fmtU p ++ "\n").data).map follyToUInt32 = some (Outcome.returned p) := by
  obtain ⟨r, w, hst, hos⟩ := makePidFile_ok os x p hopen
  have hres : (resolvePid os p).1 = p := by rw [resolvePid_fst, if_neg hp0]
  rw [hres] at hos
  refine ⟨hst, ?_, read_fmtU p hp⟩
  rw [hos] at hread ⊢
  have hr : r = true := by
    cases r with
    | true => rfl
    | false => simp [OS.access, setFile_files_self] at hread
  rw [isPidAvailableFile_of_content (os.setFile x ⟨fmtU p ++ "\n", r, w⟩) x
    ⟨fmtU p ++ "\n", r, w⟩ p (setFile_files_self os x _) hr (read_fmtU p hp)]
  rfl

/-- Witness of C2, amended: pid 4242 written to a new file of `demoOS`. -/
theorem pidfile_roundtrip_witness :
    (makePidFile demoOS "/run/new.pid" 4242).1 = Status.OK ∧
      (isPidAvailableFile (makePidFile demoOS "/run/new.pid" 4242).2.1 "/run/new.pid").1 =
        Outcome.returned (isPidAvailable demoOS 4242).1 ∧
      (firstDigitRun (fmtU 4242 ++ "\n").data).map follyToUInt32
        = some (Outcome.returned 4242) :=
  pidfile_roundtrip demoOS "/run/new.pid" 4242 (by decide) (by norm_num) (by decide) (by decide)

/-- C2, counterexample: `/run/w.pid` of `demoOS` can be written but not read.
`makePidFile` succeeds on it with the free pid 7, `isPidAvailable(7)` succeeds
before and after, and `isPidAvailable` of the file fails. -/
theorem pidfile_roundtrip_counterexample :
    (demoOS.fopenW "/run/w.pid").1 = SysResult.ok ∧
      (makePidFile demoOS "/run/w.pid" 7).1 = Status.OK ∧
      (isPidAvailable demoOS 7).1 = Status.OK ∧
      (isPidAvailable (makePidFile demoOS "/run/w.pid" 7).2.1 7).1 = Status.OK ∧
      (isPidAvailableFile (makePidFile demoOS "/run/w.pid" 7).2.1 "/run/w.pid").1 =
        Outcome.returned (Status.Error "/run/w.pid: Permission denied") := by
  decide

/-- C5: for every path that opens for writing and every system on which the
probe of the current pid succeeds, `makePidFile(path, 0)` succeeds, the file
then holds the current pid in decimal followed by a line break, and
`isPidAvailable(path)` on the resulting system returns a failure. -/
theorem makePidFile_self_unavailable (os : OS) (path : String)
    (hopen : (os.fopenW path).1 = SysResult.ok)
    (hlive : os.kill (os.getpid : Int) 0 = SysResult.ok) :
    (makePidFile os path 0).1 = Status.OK ∧
      Option.map File.content ((makePidFile os path 0).2.1.files path) =
        some (Nat.repr os.getpid ++ "\n") ∧
      ∃ msg, (isPidAvailableFile (makePidFile os path 0).2.1 path).1 =
        Outcome.returned (Status.Error msg) := by
  obtain ⟨r, w, hst, hos⟩ := makePidFile_ok os path 0 hopen
  have hg : os.getpid < 2 ^ 32 := Nat.lt_trans os.getpid_lt (by norm_num)
  have hres : (resolvePid os 0).1 = os.getpid := by rw [resolvePid_fst, if_pos rfl]
  rw [hres] at hos
  refine ⟨hst, ?_, ?_⟩
  · rw [hos, setFile_files_self, fmtU_eq _ hg]
    rfl
  · rw [hos]
    cases r with
    | false =>
      have hacc : (os.setFile path ⟨fmtU os.getpid ++ "\n", false, w⟩).access path
          = SysResult.fail EACCES := by
        simp [OS.access, setFile_files_self]
      have hne : EACCES ≠ ENOENT := by decide
      rw [isPidAvailableFile_of_access_fail _ path EACCES hacc, if_neg hne]
      exact ⟨_, rfl⟩
    | true =>
      rw [isPidAvailableFile_of_content (os.setFile path ⟨fmtU os.getpid ++ "\n", true, w⟩) path
        ⟨fmtU os.getpid ++ "\n", true, w⟩ os.getpid (setFile_files_self os path _) rfl
        (read_fmtU os.getpid hg)]
      rw [isPidAvailable_setFile]
      have hk : os.kill (toPidT os.getpid) 0 = SysResult.ok := by
        rw [toPidT_small _ os.getpid_lt]; exact hlive
      exact ⟨_, congrArg Outcome.returned (isPidAvailable_of_ok os os.getpid hk)⟩

/-- Witness of C5: the caller of `demoOS` records itself in a new file. -/
theorem makePidFile_self_unavailable_witness :
    (makePidFile demoOS "/run/new.pid" 0).1 = Status.OK ∧
      Option.map File.content ((makePidFile demoOS "/run/new.pid" 0).2.1.files "/run/new.pid") =
        some (Nat.repr demoOS.getpid ++ "\n") ∧
      ∃ msg, (isPidAvailableFile (makePidFile demoOS "/run/new.pid" 0).2.1 "/run/new.pid").1 =
        Outcome.returned (Status.Error msg) :=
  makePidFile_self_unavailable demoOS "/run/new.pid" (by decide) (by decide)

/-! ## The sentinel 0 -/

/-- C3, amended: in `makePidFile`, `getExePath`, `getExeCWD` and
`getProcessName` the pid 0 stands for the current process: the call with pid 0
gives the result (and, for `makePidFile`, the file system) of the call with the
pid `getpid()` returns.  `isPidAvailable(pid)` has no such case: with pid 0 its
one call is `kill(0, 0)`. -/
theorem zero_is_current_process (os : OS) (path : String) :
    (makePidFile os path 0).1 = (makePidFile os path os.getpid).1 ∧
      (makePidFile os path 0).2.1 = (makePidFile os path os.getpid).2.1 ∧
      (getExePath os 0).1 = (getExePath os os.getpid).1 ∧
      (getExeCWD os 0).1 = (getExeCWD os os.getpid).1 ∧
      (getProcessName os 0).1 = (getProcessName os os.getpid).1 ∧
      (isPidAvailable os 0).2 = [Call.kill 0 0] := by
  have hg : os.getpid % 2 ^ 32 = os.getpid :=
    Nat.mod_eq_of_lt (Nat.lt_trans os.getpid_lt (by norm_num))
  have hres : (resolvePid os 0).1 = (resolvePid os os.getpid).1 := by
    rw [resolvePid_fst, resolvePid_fst, if_pos rfl]
    by_cases h0 : os.getpid = 0
    · rw [if_pos h0]
    · rw [if_neg h0]
  have hmk : (makePidFile os path 0).1 = (makePidFile os path os.getpid).1 ∧
      (makePidFile os path 0).2.1 = (makePidFile os path os.getpid).2.1 := by
    unfold makePidFile
    cases hfo : os.fopenW path with
    | mk res os1 =>
      cases res with
      | fail e => exact ⟨rfl, rfl⟩
      | ok =>
        by_cases h0 : os.getpid = 0
        · rw [h0]; exact ⟨rfl, rfl⟩
        · simp only [if_true, if_neg h0, toUInt32, fmtU, Nat.mod_mod, and_self]
  refine ⟨hmk.1, hmk.2, ?_, ?_, ?_, ?_⟩
  · simp only [getExePath, hres]
  · simp only [getExeCWD, hres]
  · simp only [getProcessName, hres]
    cases os.readLine
      (snprintf PATH_MAX ("/proc/" ++ fmtU (resolvePid os os.getpid).1 ++ "/comm")) <;> rfl
  · rw [isPidAvailable_calls]
    rfl

/-- C3, counterexample: on `demoOS` the caller is process 4242, and
`isPidAvailable(0)` does not return what `isPidAvailable(4242)` returns. -/
theorem zero_is_current_process_counterexample :
    demoOS.getpid = 4242 ∧
      (isPidAvailable demoOS 0).1 = Status.Error "Process `0' already existed" ∧
      (isPidAvailable demoOS demoOS.getpid).1 = Status.Error "Process `4242' already existed" ∧
      (isPidAvailable demoOS 0).1 ≠ (isPidAvailable demoOS demoOS.getpid).1 := by
  decide

/-! ## A recorded number that does not fit 32 bits -/

/-- C6: on `demoOS` the readable pidfile `/run/big.pid` holds the digit run
`4294967296` (2^32); `isPidAvailable` of that file returns no `Status`: the
conversion `folly::to<uint32_t>` throws and the exception leaves the function
before any probe is sent. -/
theorem isPidAvailableFile_overflow_throws :
    demoOS.access "/run/big.pid" = SysResult.ok ∧
      accessorNext demoOS "/run/big.pid" = some "4294967296".data ∧
      isPidAvailableFile demoOS "/run/big.pid" =
        (Outcome.thrown "folly::ConversionError",
          [Call.access "/run/big.pid", Call.readFile "/run/big.pid"]) := by
  decide

end nebula
